import Mathlib

/-!
# Verification of the dfcompy DataFrame comparator

Shallow embedding of `src/dfcompy/core.py`: a comparator for two tabular
datasets.  Cells are modelled as either a rational number (Python floats /
ints) or a string; a table is a column list plus a list of rows, each row an
association list from column name to cell value.  Fallible Python code
(exceptions) is modelled with `Except PyError`.
-/

set_option autoImplicit false

attribute [local semireducible] Rat.add Rat.sub Rat.mul Rat.inv

/-- A scalar cell value: a number (Python int/float, modelled as `ℚ`) or a
string. -/
inductive Value where
  | num : ℚ → Value
  | str : String → Value
deriving DecidableEq

/-- The Python exceptions the embedded code can raise.
`assertionError` is the `assert` in `_check_subset`; the two `keyError…`
constructors are the two `KeyError`s it raises; `valueError` is the
`ValueError` raised by `float()` on a non-numeric value (the spec's
`TypeConversionError`); `attributeError` is `.lower()` called on a
non-string. -/
inductive PyError where
  | assertionError : PyError
  | keyErrorNoCommon : PyError
  | keyErrorInvalidSubset : PyError
  | valueError : PyError
  | attributeError : PyError
deriving DecidableEq

/-- The construction-time configuration failures (the spec's
`ConfigurationError` class). -/
def PyError.isConfigurationError : PyError → Bool
  | .assertionError => true
  | .keyErrorNoCommon => true
  | .keyErrorInvalidSubset => true
  | _ => false

/-- Numeric value of a list of decimal digit characters. -/
def digitsToNat (l : List Char) : ℕ :=
  l.foldl (fun a c => 10 * a + (c.toNat - ('0').toNat)) 0

/-- Split a character list at the first dot. -/
def splitDot : List Char → List Char × List Char
  | [] => ([], [])
  | c :: r => if c = '.' then ([], r) else
      let p := splitDot r
      (c :: p.1, p.2)

/-- Parse an unsigned decimal literal (digits, optionally with one dot). -/
def parseUnsigned? (cs : List Char) : Option ℚ :=
  let p := splitDot cs
  if p.1.all Char.isDigit ∧ p.2.all Char.isDigit ∧ (p.1 ≠ [] ∨ p.2 ≠ []) then
    some ((digitsToNat p.1 : ℚ) + (digitsToNat p.2 : ℚ) / (10 : ℚ) ^ p.2.length)
  else none

/-- The decimal fragment of Python `float(str)`: optional sign, digits with an
optional dot.  (Exponents, `inf`/`nan` and surrounding whitespace are outside
the fragment used by this repository's data model.) -/
def parseDec? (s : String) : Option ℚ :=
  match s.toList with
  | '-' :: rest => (parseUnsigned? rest).map (fun q => -q)
  | '+' :: rest => parseUnsigned? rest
  | cs => parseUnsigned? cs

/-- Python `float(v)`: a number converts to itself, a string is parsed as a
decimal literal, anything unparsable raises `ValueError` (here `none`). -/
def asFloat? : Value → Option ℚ
  | .num q => some q
  | .str s => parseDec? s

/-- `NumberComparator.absolutely_compare`: absolute tolerance comparison,
`abs(one_value - other_value) < tolerance`. -/
def NumberComparator.absolutely_compare (one_value other_value tolerance : ℚ) : Bool :=
  decide (abs (one_value - other_value) < tolerance)

/-- `NumberComparator.relatively_compare`: returns `True` when
`other_value == one_value == 0`, else
`abs((one_value - other_value) / max(abs(one_value), abs(other_value))) < tolerance`. -/
def NumberComparator.relatively_compare (one_value other_value tolerance : ℚ) : Bool :=
  if other_value = one_value ∧ one_value = 0 then true
  else decide (abs ((one_value - other_value) / max (abs one_value) (abs other_value)) < tolerance)

/-- `NumberComparator.compare`: converts both values with `float()` (raising
`ValueError` on failure) and dispatches on the tolerance mode; any mode other
than `"relative"` falls to absolute comparison. -/
def NumberComparator.compare (one other : Value) (tol_mode : String) (tolerance : ℚ) :
    Except PyError Bool :=
  match asFloat? one, asFloat? other with
  | some one_value, some other_value =>
      if tol_mode = "relative" then
        .ok (NumberComparator.relatively_compare one_value other_value tolerance)
      else
        .ok (NumberComparator.absolutely_compare one_value other_value tolerance)
  | _, _ => .error .valueError

/-- `StringComparator.compare`: with `ignore_case` both values are lower-cased
(`.lower()` raises `AttributeError` on a non-string), else plain `==`. -/
def StringComparator.compare (one other : Value) (ignore_case : Bool) : Except PyError Bool :=
  if ignore_case then
    match one, other with
    | .str a, .str b => .ok (decide (a.toLower = b.toLower))
    | _, _ => .error .attributeError
  else
    .ok (decide (one = other))

deriving instance DecidableEq for Except

/-- A row of a DataFrame: an association list from column name to cell
value. -/
abbrev Row := List (String × Value)

/-- A pandas DataFrame: its column names and its rows, in order. -/
structure Table where
  cols : List String
  rows : List Row
deriving DecidableEq

/-- Cell access `row[col]`: the first binding of the column in the row.  In a
well-formed frame every row binds every column of the frame, so the default
branch is unreachable. -/
def getCell (r : Row) (c : String) : Value :=
  match r.find? (fun p => decide (p.1 = c)) with
  | some p => p.2
  | none => Value.str ""

/-- The composite key of a row: its values at the `on` columns, in order
(`set_index(on)`). -/
def keyOf (onCols : List String) (r : Row) : List Value :=
  onCols.map (getCell r)

/-- The keys of a table under the `on` columns, in row order. -/
def tableKeys (t : Table) (onCols : List String) : List (List Value) :=
  t.rows.map (keyOf onCols)

/-- `_prepare_data` for one table: `df.set_index(on)[subset]` — each row
becomes its key together with its cells restricted to the `subset` columns. -/
def prepareTable (t : Table) (onCols subset : List String) : List (List Value × Row) :=
  t.rows.map (fun r => (keyOf onCols r, subset.map (fun c => (c, getCell r c))))

/-- `index.isin(...)` for one key: is the key present in the indexed table? -/
def keyMem (t : List (List Value × Row)) (k : List Value) : Bool :=
  t.any (fun kr => decide (kr.1 = k))

/-- `df.at[key, col]`-style row lookup on an indexed table: the first row
bearing the key (unique when keys are unique). -/
def lookupRow (t : List (List Value × Row)) (k : List Value) : Option Row :=
  (t.find? (fun kr => decide (kr.1 = k))).map Prod.snd

/-- `df.loc[keys]`: the rows of the indexed table whose key occurs in `keys`,
in `keys` order. -/
def loc (t : List (List Value × Row)) (ks : List (List Value)) : List (List Value × Row) :=
  ks.flatMap (fun k => t.filter (fun kr => decide (kr.1 = k)))

/-- The keys of an indexed table, in order (`df.index`). -/
def partKeys (rs : List (List Value × Row)) : List (List Value) :=
  rs.map Prod.fst

/-- The effective compared subset: Python `subset or one.columns.tolist()` —
`None` and the empty list are both falsy and are replaced by all columns of
the old table. -/
def effectiveSubset (one : Table) : Option (List String) → List String
  | none => one.cols
  | some s => if s.isEmpty then one.cols else s

/-- `_check_subset`: the construction-time configuration checks.  The first
guard is the Python `assert`; the two `KeyError`s follow.  (The
`if self.subset is None` branch of the source is dead code — `__init__` has
already replaced a falsy subset — and is omitted.) -/
def DataFrameComparator.check_subset (one other : Table) (onCols subset : List String) :
    Except PyError Unit :=
  let join_columns := one.cols.filter (fun c => decide (c ∈ other.cols))
  if decide (0 < onCols.length) && !(onCols.all (fun c => decide (c ∈ subset)))
      && onCols.all (fun c => decide (c ∈ join_columns)) then
    let except_on_columns := join_columns.filter (fun c => decide (c ∉ onCols))
    if except_on_columns.length = 0 then .error .keyErrorNoCommon
    else if !(subset.all (fun c => decide (c ∈ except_on_columns))) then
      .error .keyErrorInvalidSubset
    else .ok ()
  else .error .assertionError

/-- `_prepare_comparators` for one column: the column of the prepared old
table is classified Numeric iff every value converts with `float()`
(`astype("float64")` succeeding). -/
def classifyNumeric (pone : List (List Value × Row)) (c : String) : Bool :=
  pone.all (fun kr => (asFloat? (getCell kr.2 c)).isSome)

/-- Exception-propagating traversal: the Python `for` loops stop at the first
raised exception. -/
def exceptMap {α β : Type} (f : α → Except PyError β) : List α → Except PyError (List β)
  | [] => .ok []
  | x :: xs =>
    match f x with
    | .error e => .error e
    | .ok y =>
      match exceptMap f xs with
      | .error e => .error e
      | .ok ys => .ok (y :: ys)

/-- One cell comparison of `_compare`: fetch the old and new values of the
column at a common key and run the comparator chosen for the column.  (The
`else None` branch of the source is unreachable for a common key.) -/
def cellVerdict (isNum : Bool) (pother : List (List Value × Row)) (number_mode : String)
    (number_tolerance : ℚ) ( ignore_case : Bool) (c : String) (kr : List Value × Row) :
    Except PyError Bool :=
  let one_val := getCell kr.2 c
  let other_val :=
    match lookupRow pother kr.1 with
    | some r => getCell r c
    | none => Value.str ""
  if isNum then NumberComparator.compare one_val other_val number_mode number_tolerance
  else StringComparator.compare one_val other_val ignore_case

/-- The inner loop of `_compare` for one column: the cell verdicts of that
column at every common key, in index order. -/
def colVerdicts (common pother : List (List Value × Row)) (number_mode : String)
    (number_tolerance : ℚ) ( ignore_case : Bool) (c : String) (isNum : Bool) :
    Except PyError (List Bool) :=
  exceptMap (cellVerdict isNum pother number_mode number_tolerance ignore_case c) common

/-- The state a successfully constructed `DataFrameComparator` carries:
`_one`, `_other`, the index of the `_comparison` frame (the common keys in
old-table order) and `_mask` (per common key: all cell verdicts true). -/
structure CompareResult where
  oneIdx : List (List Value × Row)
  otherIdx : List (List Value × Row)
  common : List (List Value × Row)
  mask : List Bool
deriving DecidableEq

/-- `DataFrameComparator.__init__`: defaulting of the subset, the subset
check, data preparation, per-column comparator classification, and the
`_compare` double loop producing the per-key mask
(`comparison.apply(lambda x: all(x), axis=1)`). -/
def DataFrameComparator.construct (one other : Table) (onCols : List String)
    (subset : Option (List String)) (number_mode : String) (number_tolerance : ℚ)
    ( ignore_case : Bool) : Except PyError CompareResult :=
  let sub := effectiveSubset one subset
  match DataFrameComparator.check_subset one other onCols sub with
  | .error e => .error e
  | .ok _ =>
    let pone := prepareTable one onCols sub
    let pother := prepareTable other onCols sub
    let comparators := sub.map (classifyNumeric pone)
    let common := pone.filter (fun kr => keyMem pother kr.1)
    match exceptMap
        (fun p => colVerdicts common pother number_mode number_tolerance ignore_case p.1 p.2)
        (sub.zip comparators) with
    | .error e => .error e
    | .ok colVs =>
      .ok ⟨pone, pother, common,
        colVs.foldl (fun acc col => List.zipWith (fun a b => a && b) acc col)
          (List.replicate common.length true)⟩

/-- `rows_deleted`: rows of `_one` whose key is absent from `_other`. -/
def CompareResult.rows_deleted (c : CompareResult) : List (List Value × Row) :=
  c.oneIdx.filter (fun kr => !(keyMem c.otherIdx kr.1))

/-- `rows_inserted`: rows of `_other` whose key is absent from `_one`. -/
def CompareResult.rows_inserted (c : CompareResult) : List (List Value × Row) :=
  c.otherIdx.filter (fun kr => !(keyMem c.oneIdx kr.1))

/-- The index selected from the `_comparison` frame by the mask
(`_comparison.loc[mask].index` for `b = true`, `.loc[~mask]` for
`b = false`). -/
def maskKeys (common : List (List Value × Row)) (mask : List Bool) (b : Bool) :
    List (List Value) :=
  (common.zip mask).filterMap (fun p => if p.2 = b then some p.1.1 else none)

/-- `rows_in_common`: rows of `_one` at the common keys whose mask is true. -/
def CompareResult.rows_in_common (c : CompareResult) : List (List Value × Row) :=
  loc c.oneIdx (maskKeys c.common c.mask true)

/-- `rows_before_update`: rows of `_one` at the common keys whose mask is
false. -/
def CompareResult.rows_before_update (c : CompareResult) : List (List Value × Row) :=
  loc c.oneIdx (maskKeys c.common c.mask false)

/-- `rows_after_update`: rows of `_other` at the common keys whose mask is
false. -/
def CompareResult.rows_after_update (c : CompareResult) : List (List Value × Row) :=
  loc c.otherIdx (maskKeys c.common c.mask false)

/-- Concrete tables used to evaluate the comparator at concrete inputs. -/
def sampleOld : Table :=
  ⟨["ID", "V"], [[("ID", .num 1), ("V", .num 10)], [("ID", .num 2), ("V", .num 20)]]⟩

def sampleNew : Table :=
  ⟨["ID", "V"], [[("ID", .num 2), ("V", .num 20)], [("ID", .num 3), ("V", .num 30)]]⟩

def sampleDup : Table :=
  ⟨["ID", "V"], [[("ID", .num 1), ("V", .num 10)], [("ID", .num 1), ("V", .num 20)]]⟩

def sampleBad : Table := ⟨["ID", "V"], [[("ID", .num 1), ("V", .str "abc")]]⟩

def sampleGood : Table := ⟨["ID", "V"], [[("ID", .num 1), ("V", .num 10)]]⟩

def sampleSelfResult : CompareResult :=
  ⟨[([Value.num 1], [("V", Value.num 10)]), ([Value.num 2], [("V", Value.num 20)])],
   [([Value.num 1], [("V", Value.num 10)]), ([Value.num 2], [("V", Value.num 20)])],
   [([Value.num 1], [("V", Value.num 10)]), ([Value.num 2], [("V", Value.num 20)])],
   [true, true]⟩

def sampleUpdNew : Table := ⟨["ID", "V"], [[("ID", Value.num 1), ("V", Value.num 999)]]⟩

def sampleUpdResult : CompareResult :=
  ⟨[([Value.num 1], [("V", Value.num 10)])], [([Value.num 1], [("V", Value.num 999)])],
   [([Value.num 1], [("V", Value.num 10)])], [false]⟩

def sampleResult : CompareResult :=
  ⟨[([Value.num 1], [("V", Value.num 10)]), ([Value.num 2], [("V", Value.num 20)])],
   [([Value.num 2], [("V", Value.num 20)]), ([Value.num 3], [("V", Value.num 30)])],
   [([Value.num 2], [("V", Value.num 20)])], [true]⟩

/-! ## Helper lemmas -/

theorem exceptMap_ok_length {α β : Type} {f : α → Except PyError β} :
    ∀ {l : List α} {ys : List β}, exceptMap f l = .ok ys → ys.length = l.length := by
  intro l
  induction l with
  | nil => intro ys h; simp [exceptMap] at h; simp [← h]
  | cons x xs ih =>
    intro ys h
    simp only [exceptMap] at h
    cases hx : f x with
    | error e => rw [hx] at h; exact absurd h (by simp)
    | ok y =>
      rw [hx] at h
      cases hxs : exceptMap f xs with
      | error e => rw [hxs] at h; exact absurd h (by simp)
      | ok ys0 =>
        rw [hxs] at h
        cases h
        simp [ih hxs]

theorem exceptMap_ok_of_mem {α β : Type} {f : α → Except PyError β} :
    ∀ {l : List α} {ys : List β}, exceptMap f l = .ok ys →
      ∀ x ∈ l, ∃ y ∈ ys, f x = .ok y := by
  intro l
  induction l with
  | nil => intro ys _ x hx; exact absurd hx (by simp)
  | cons a xs ih =>
    intro ys h x hx
    simp only [exceptMap] at h
    cases ha : f a with
    | error e => rw [ha] at h; exact absurd h (by simp)
    | ok y =>
      rw [ha] at h
      cases hxs : exceptMap f xs with
      | error e => rw [hxs] at h; exact absurd h (by simp)
      | ok ys0 =>
        rw [hxs] at h
        cases h
        rcases List.mem_cons.mp hx with rfl | hmem
        · exact ⟨y, by simp, ha⟩
        · obtain ⟨y0, hy0, hf⟩ := ih hxs x hmem
          exact ⟨y0, by simp [hy0], hf⟩

theorem exceptMap_ok_of_all_ok {α β : Type} {f : α → Except PyError β} :
    ∀ {l : List α}, (∀ x ∈ l, ∃ y, f x = .ok y) → ∃ ys, exceptMap f l = .ok ys := by
  intro l
  induction l with
  | nil => intro _; exact ⟨[], rfl⟩
  | cons a xs ih =>
    intro h
    obtain ⟨y, hy⟩ := h a (by simp)
    obtain ⟨ys, hys⟩ := ih (fun x hx => h x (by simp [hx]))
    exact ⟨y :: ys, by simp [exceptMap, hy, hys]⟩

theorem exceptMap_error_imp {α β : Type} {f : α → Except PyError β} :
    ∀ {l : List α} {e : PyError}, exceptMap f l = .error e → ∃ x ∈ l, f x = .error e := by
  intro l
  induction l with
  | nil => intro e h; exact absurd h (by simp [exceptMap])
  | cons a xs ih =>
    intro e h
    simp only [exceptMap] at h
    cases ha : f a with
    | error e0 => rw [ha] at h; cases h; exact ⟨a, by simp, ha⟩
    | ok y =>
      rw [ha] at h
      cases hxs : exceptMap f xs with
      | error e0 =>
        rw [hxs] at h; cases h
        obtain ⟨x, hx, hfx⟩ := ih hxs
        exact ⟨x, by simp [hx], hfx⟩
      | ok ys => rw [hxs] at h; exact absurd h (by simp)

theorem exceptMap_error_of {α β : Type} {f : α → Except PyError β} {E : PyError} :
    ∀ {l : List α}, (∀ x ∈ l, ∀ e, f x = .error e → e = E) →
      (∃ x ∈ l, ∃ e, f x = .error e) → exceptMap f l = .error E := by
  intro l
  induction l with
  | nil => intro _ hex; simp at hex
  | cons a xs ih =>
    intro hall hex
    simp only [exceptMap]
    cases ha : f a with
    | error e0 => rw [hall a (by simp) e0 ha]
    | ok y =>
      have hex' : ∃ x ∈ xs, ∃ e, f x = .error e := by
        obtain ⟨x, hx, e, hfx⟩ := hex
        rcases List.mem_cons.mp hx with rfl | hmem
        · rw [ha] at hfx; exact absurd hfx (by simp)
        · exact ⟨x, hmem, e, hfx⟩
      rw [ih (fun x hx => hall x (by simp [hx])) hex']

theorem keyMem_iff {t : List (List Value × Row)} {k : List Value} :
    keyMem t k = true ↔ k ∈ partKeys t := by
  simp only [keyMem, partKeys, List.any_eq_true, List.mem_map, decide_eq_true_eq]

theorem partKeys_prepare (t : Table) (onCols subset : List String) :
    partKeys (prepareTable t onCols subset) = tableKeys t onCols := by
  simp [partKeys, prepareTable, tableKeys, List.map_map, Function.comp_def]

theorem mem_partKeys_filter {t : List (List Value × Row)} {p : List Value × Row → Bool}
    {k : List Value} :
    k ∈ partKeys (t.filter p) → k ∈ partKeys t := by
  simp only [partKeys, List.mem_map]
  rintro ⟨kr, hkr, rfl⟩
  exact ⟨kr, (List.mem_filter.mp hkr).1, rfl⟩

theorem partKeys_filter_nodup {t : List (List Value × Row)} {p : List Value × Row → Bool}
    (h : (partKeys t).Nodup) : (partKeys (t.filter p)).Nodup :=
  ((List.filter_sublist t).map Prod.fst).nodup h

theorem mem_partKeys_filter_key {t : List (List Value × Row)} {k : List Value}
    {q : List Value → Bool} :
    k ∈ partKeys (t.filter (fun kr => q kr.1)) ↔ k ∈ partKeys t ∧ q k = true := by
  simp only [partKeys, List.mem_map]
  constructor
  · rintro ⟨kr, hkr, rfl⟩
    obtain ⟨h1, h2⟩ := List.mem_filter.mp hkr
    exact ⟨⟨kr, h1, rfl⟩, h2⟩
  · rintro ⟨⟨kr, hkr, rfl⟩, hq⟩
    exact ⟨kr, List.mem_filter.mpr ⟨hkr, hq⟩, rfl⟩

theorem loc_nil (t : List (List Value × Row)) : loc t [] = [] := rfl

theorem loc_cons (t : List (List Value × Row)) (k : List Value) (ks : List (List Value)) :
    loc t (k :: ks) = t.filter (fun kr => decide (kr.1 = k)) ++ loc t ks := by
  simp [loc]

theorem mem_partKeys_loc {t : List (List Value × Row)} {ks : List (List Value)}
    {k : List Value} : k ∈ partKeys (loc t ks) ↔ k ∈ ks ∧ k ∈ partKeys t := by
  induction ks with
  | nil => simp [loc_nil, partKeys]
  | cons k0 ks ih =>
    simp only [loc_cons, partKeys, List.map_append, List.mem_append, List.mem_cons]
    constructor
    · intro h
      rcases h with h | h
      · simp only [List.mem_map] at h
        obtain ⟨kr, hkr, rfl⟩ := h
        obtain ⟨h1, h2⟩ := List.mem_filter.mp hkr
        simp only [decide_eq_true_eq] at h2
        rw [h2]
        exact ⟨Or.inl rfl, List.mem_map.mpr ⟨kr, h1, h2 ▸ rfl⟩⟩
      · obtain ⟨h1, h2⟩ := ih.mp h
        exact ⟨Or.inr h1, h2⟩
    · rintro ⟨h1 | h1, h2⟩
      · subst h1
        obtain ⟨kr, hkr, rfl⟩ := List.mem_map.mp h2
        exact Or.inl (List.mem_map.mpr ⟨kr, List.mem_filter.mpr ⟨hkr, by simp⟩, rfl⟩)
      · exact Or.inr (ih.mpr ⟨h1, h2⟩)

theorem filter_key_singleton {t : List (List Value × Row)} {k : List Value}
    (hnd : (partKeys t).Nodup) (hk : k ∈ partKeys t) :
    ∃ r : Row, t.filter (fun kr => decide (kr.1 = k)) = [(k, r)] := by
  induction t with
  | nil => simp [partKeys] at hk
  | cons kr t ih =>
    simp only [partKeys, List.map_cons, List.nodup_cons] at hnd
    rcases List.mem_cons.mp hk with h | h
    · subst h
      refine ⟨kr.2, ?_⟩
      have ht : t.filter (fun kr' => decide (kr'.1 = kr.1)) = [] := by
        rw [List.filter_eq_nil_iff]
        intro kr' hkr'
        simp only [decide_eq_true_eq]
        intro hkk
        exact hnd.1 (hkk ▸ List.mem_map.mpr ⟨kr', hkr', rfl⟩)
      rw [List.filter_cons, if_pos (by simp), ht]
    · obtain ⟨r, hr⟩ := ih hnd.2 h
      refine ⟨r, ?_⟩
      have hcond : ¬ decide (kr.1 = k) = true := by
        simp only [decide_eq_true_eq]
        intro hkk
        exact hnd.1 (hkk ▸ h)
      rw [List.filter_cons, if_neg hcond, hr]

theorem partKeys_loc_eq {t : List (List Value × Row)} (hnd : (partKeys t).Nodup) :
    ∀ {ks : List (List Value)}, (∀ k ∈ ks, k ∈ partKeys t) → partKeys (loc t ks) = ks := by
  intro ks
  induction ks with
  | nil => intro _; simp [loc_nil, partKeys]
  | cons k0 ks ih =>
    intro h
    obtain ⟨r, hr⟩ := filter_key_singleton hnd (h k0 (by simp))
    have : partKeys (loc t (k0 :: ks)) =
        partKeys (t.filter (fun kr => decide (kr.1 = k0))) ++ partKeys (loc t ks) := by
      simp [loc_cons, partKeys]
    rw [this, hr, ih (fun k hk => h k (by simp [hk]))]
    rfl

theorem loc_self {t : List (List Value × Row)} (hnd : (partKeys t).Nodup) :
    loc t (partKeys t) = t := by
  induction t with
  | nil => simp [partKeys, loc_nil]
  | cons kr t ih =>
    simp only [partKeys, List.map_cons, List.nodup_cons] at hnd
    have hhd : (kr :: t).filter (fun kr' => decide (kr'.1 = kr.1)) = [kr] := by
      have ht : t.filter (fun kr' => decide (kr'.1 = kr.1)) = [] := by
        rw [List.filter_eq_nil_iff]
        intro kr' hkr'
        simp only [decide_eq_true_eq]
        intro hkk
        exact hnd.1 (hkk ▸ List.mem_map.mpr ⟨kr', hkr', rfl⟩)
      rw [List.filter_cons, if_pos (by simp), ht]
    have htail : loc (kr :: t) (List.map Prod.fst t) = loc t (List.map Prod.fst t) := by
      simp only [loc]
      refine List.flatMap_congr ?_
      intro k hk
      have : ¬ decide (kr.1 = k) = true := by
        simp only [decide_eq_true_eq]
        intro hkk
        exact hnd.1 (hkk ▸ hk)
      rw [List.filter_cons, if_neg this]
    have : loc (kr :: t) (kr.1 :: List.map Prod.fst t) =
        (kr :: t).filter (fun kr' => decide (kr'.1 = kr.1)) ++
          loc (kr :: t) (List.map Prod.fst t) := loc_cons _ _ _
    rw [show partKeys (kr :: t) = kr.1 :: List.map Prod.fst t from rfl, this, hhd, htail]
    have : loc t (List.map Prod.fst t) = t := ih hnd.2
    rw [this]
    rfl

theorem maskKeys_cons (kr : List Value × Row) (t : List (List Value × Row)) (b0 : Bool)
    (ms : List Bool) (b : Bool) :
    maskKeys (kr :: t) (b0 :: ms) b =
      if b0 = b then kr.1 :: maskKeys t ms b else maskKeys t ms b := by
  by_cases hb : b0 = b <;> simp [maskKeys, List.zip_cons_cons, List.filterMap_cons, hb]

theorem mem_maskKeys_imp {common : List (List Value × Row)} {mask : List Bool} {b : Bool}
    {k : List Value} : k ∈ maskKeys common mask b → k ∈ partKeys common := by
  simp only [maskKeys, List.mem_filterMap]
  rintro ⟨p, hp, hsome⟩
  by_cases hb : p.2 = b
  · simp only [hb, if_pos rfl] at hsome
    cases hsome
    exact List.mem_map.mpr ⟨p.1, (List.of_mem_zip hp).1, rfl⟩
  · simp [hb] at hsome

theorem maskKeys_cover {common : List (List Value × Row)} :
    ∀ {mask : List Bool}, mask.length = common.length → ∀ {k : List Value},
      k ∈ partKeys common → k ∈ maskKeys common mask true ∨ k ∈ maskKeys common mask false := by
  induction common with
  | nil => intro mask _ k hk; simp [partKeys] at hk
  | cons kr t ih =>
    intro mask hlen k hk
    cases mask with
    | nil => simp at hlen
    | cons b ms =>
      simp only [List.length_cons, Nat.succ.injEq] at hlen
      rcases List.mem_cons.mp hk with h | h
      · cases b
        · right; rw [maskKeys_cons, if_pos rfl]; simp [h]
        · left; rw [maskKeys_cons, if_pos rfl]; simp [h]
      · rcases ih hlen h with hc | hc
        · left
          rw [maskKeys_cons]
          by_cases hb : b = true <;> simp [hb, hc]
        · right
          rw [maskKeys_cons]
          by_cases hb : b = false <;> simp [hb, hc]

theorem maskKeys_disjoint {common : List (List Value × Row)} :
    ∀ {mask : List Bool} {k : List Value}, (partKeys common).Nodup →
      ¬ (k ∈ maskKeys common mask true ∧ k ∈ maskKeys common mask false) := by
  induction common with
  | nil => intro mask k _ h; simp [maskKeys] at h
  | cons kr t ih =>
    intro mask k hnd h
    simp only [partKeys, List.map_cons, List.nodup_cons] at hnd
    cases mask with
    | nil => simp [maskKeys] at h
    | cons b ms =>
      obtain ⟨h1, h2⟩ := h
      rw [maskKeys_cons] at h1 h2
      cases b
      · rw [if_neg (by simp)] at h1
        rw [if_pos rfl] at h2
        rcases List.mem_cons.mp h2 with rfl | h2'
        · exact hnd.1 (mem_maskKeys_imp h1)
        · exact ih hnd.2 ⟨h1, h2'⟩
      · rw [if_pos rfl] at h1
        rw [if_neg (by simp)] at h2
        rcases List.mem_cons.mp h1 with rfl | h1'
        · exact hnd.1 (mem_maskKeys_imp h2)
        · exact ih hnd.2 ⟨h1', h2⟩

theorem maskKeys_replicate_true (common : List (List Value × Row)) :
    maskKeys common (List.replicate common.length true) true = partKeys common ∧
      maskKeys common (List.replicate common.length true) false = [] := by
  induction common with
  | nil => simp [maskKeys, partKeys]
  | cons kr t ih =>
    constructor
    · rw [List.length_cons, List.replicate_succ, maskKeys_cons, if_pos rfl, ih.1]
      rfl
    · rw [List.length_cons, List.replicate_succ, maskKeys_cons, if_neg (by simp), ih.2]

theorem foldl_zipWith_and_length :
    ∀ {cols : List (List Bool)} {acc : List Bool}, (∀ cl ∈ cols, cl.length = acc.length) →
      (cols.foldl (fun a col => List.zipWith (fun x y => x && y) a col) acc).length =
        acc.length := by
  intro cols
  induction cols with
  | nil => intro acc _; rfl
  | cons c0 cols ih =>
    intro acc h
    have hlen : (List.zipWith (fun x y => x && y) acc c0).length = acc.length := by
      rw [List.length_zipWith, h c0 (by simp)]
      exact Nat.min_self _
    simp only [List.foldl_cons]
    rw [ih (fun cl hcl => by rw [h cl (by simp [hcl]), ← hlen]), hlen]

theorem foldl_zipWith_and_replicate :
    ∀ {cols : List (List Bool)} {n : ℕ}, (∀ cl ∈ cols, cl = List.replicate n true) →
      cols.foldl (fun a col => List.zipWith (fun x y => x && y) a col)
        (List.replicate n true) = List.replicate n true := by
  intro cols
  induction cols with
  | nil => intro n _; rfl
  | cons c0 cols ih =>
    intro n h
    simp only [List.foldl_cons, h c0 (by simp)]
    rw [List.zipWith_replicate']
    simp only [Bool.and_self]
    exact ih (fun cl hcl => h cl (by simp [hcl]))

theorem construct_ok_inv {one other : Table} {onCols : List String}
    {subset : Option (List String)} {number_mode : String} {number_tolerance : ℚ}
    { ignore_case : Bool} {c : CompareResult}
    (h : DataFrameComparator.construct one other onCols subset number_mode number_tolerance
      ignore_case = .ok c) :
    DataFrameComparator.check_subset one other onCols (effectiveSubset one subset) = .ok () ∧
    ∃ colVs : List (List Bool),
      exceptMap
        (fun p => colVerdicts
          ((prepareTable one onCols (effectiveSubset one subset)).filter
            (fun kr => keyMem (prepareTable other onCols (effectiveSubset one subset)) kr.1))
          (prepareTable other onCols (effectiveSubset one subset))
          number_mode number_tolerance ignore_case p.1 p.2)
        ((effectiveSubset one subset).zip
          ((effectiveSubset one subset).map
            (classifyNumeric (prepareTable one onCols (effectiveSubset one subset))))) =
        .ok colVs ∧
      c = ⟨prepareTable one onCols (effectiveSubset one subset),
        prepareTable other onCols (effectiveSubset one subset),
        (prepareTable one onCols (effectiveSubset one subset)).filter
          (fun kr => keyMem (prepareTable other onCols (effectiveSubset one subset)) kr.1),
        colVs.foldl (fun acc col => List.zipWith (fun a b => a && b) acc col)
          (List.replicate
            ((prepareTable one onCols (effectiveSubset one subset)).filter
              (fun kr =>
                keyMem (prepareTable other onCols (effectiveSubset one subset)) kr.1)).length
            true)⟩ := by
  simp only [DataFrameComparator.construct] at h
  cases hcheck : DataFrameComparator.check_subset one other onCols
      (effectiveSubset one subset) with
  | error e => rw [hcheck] at h; exact absurd h (by simp)
  | ok u =>
    cases u
    rw [hcheck] at h
    refine ⟨rfl, ?_⟩
    cases hmap : exceptMap
        (fun p => colVerdicts
          ((prepareTable one onCols (effectiveSubset one subset)).filter
            (fun kr => keyMem (prepareTable other onCols (effectiveSubset one subset)) kr.1))
          (prepareTable other onCols (effectiveSubset one subset))
          number_mode number_tolerance ignore_case p.1 p.2)
        ((effectiveSubset one subset).zip
          ((effectiveSubset one subset).map
            (classifyNumeric (prepareTable one onCols (effectiveSubset one subset))))) with
    | error e => rw [hmap] at h; exact absurd h (by simp)
    | ok colVs =>
      rw [hmap] at h
      simp only [Except.ok.injEq] at h
      exact ⟨colVs, rfl, h.symm⟩

theorem exceptMap_ok_mem_rev {α β : Type} {f : α → Except PyError β} :
    ∀ {l : List α} {ys : List β}, exceptMap f l = .ok ys →
      ∀ y ∈ ys, ∃ x ∈ l, f x = .ok y := by
  intro l
  induction l with
  | nil =>
    intro ys h y hy
    simp only [exceptMap, Except.ok.injEq] at h
    rw [← h] at hy
    exact absurd hy (by simp)
  | cons a xs ih =>
    intro ys h y hy
    simp only [exceptMap] at h
    cases ha : f a with
    | error e => rw [ha] at h; exact absurd h (by simp)
    | ok y0 =>
      rw [ha] at h
      cases hxs : exceptMap f xs with
      | error e => rw [hxs] at h; exact absurd h (by simp)
      | ok ys0 =>
        rw [hxs] at h
        cases h
        rcases List.mem_cons.mp hy with rfl | hmem
        · exact ⟨a, by simp, ha⟩
        · obtain ⟨x, hx, hfx⟩ := ih hxs y hmem
          exact ⟨x, by simp [hx], hfx⟩

theorem lookupRow_eq {t : List (List Value × Row)} {k : List Value} {r : Row}
    (hnd : (partKeys t).Nodup) (h : (k, r) ∈ t) : lookupRow t k = some r := by
  induction t with
  | nil => exact absurd h (by simp)
  | cons kr t ih =>
    simp only [partKeys, List.map_cons, List.nodup_cons] at hnd
    rcases List.mem_cons.mp h with heq | hmem
    · rw [← heq]
      simp [lookupRow, List.find?_cons]
    · have hne : ¬ decide (kr.1 = k) = true := by
        simp only [decide_eq_true_eq]
        intro hkk
        exact hnd.1 (hkk ▸ List.mem_map.mpr ⟨(k, r), hmem, rfl⟩)
      simp only [lookupRow, List.find?_cons, hne]
      simpa [lookupRow] using ih hnd.2 hmem

theorem NumberComparator.compare_error {v w : Value} {m : String} {tol : ℚ} {e : PyError}
    (h : NumberComparator.compare v w m tol = .error e) : e = .valueError := by
  unfold NumberComparator.compare at h
  cases hv : asFloat? v <;> cases hw : asFloat? w <;> rw [hv, hw] at h
  · cases h; rfl
  · cases h; rfl
  · cases h; rfl
  · by_cases hm : m = "relative" <;> simp [hm] at h

theorem NumberComparator.compare_none_error {v w : Value} {m : String} {tol : ℚ}
    (h : asFloat? v = none ∨ asFloat? w = none) :
    NumberComparator.compare v w m tol = .error .valueError := by
  unfold NumberComparator.compare
  rcases h with h | h
  · rw [h]
  · rw [h]; cases asFloat? v <;> rfl

theorem numberCompare_self_true {v : Value} {m : String} {tol : ℚ} {b : Bool}
    (htol : 0 < tol) (h : NumberComparator.compare v v m tol = .ok b) : b = true := by
  unfold NumberComparator.compare at h
  cases hv : asFloat? v with
  | none => rw [hv] at h; exact absurd h (by simp)
  | some a =>
    rw [hv] at h
    by_cases hm : m = "relative"
    · have hb : NumberComparator.relatively_compare a a tol = b := by simpa [hm] using h
      rw [← hb]
      unfold NumberComparator.relatively_compare
      by_cases hz : a = 0
      · rw [if_pos ⟨rfl, hz⟩]
      · rw [if_neg (fun hq => hz hq.2)]
        simp [htol]
    · have hb : NumberComparator.absolutely_compare a a tol = b := by simpa [hm] using h
      rw [← hb]
      unfold NumberComparator.absolutely_compare
      simp [htol]

theorem stringCompare_self_true {v : Value} { ignore_case : Bool} {b : Bool}
    (h : StringComparator.compare v v ignore_case = .ok b) : b = true := by
  unfold StringComparator.compare at h
  cases hic : ignore_case with
  | false => rw [hic] at h; simp at h; simp [← h]
  | true =>
    rw [hic] at h
    simp only [if_pos rfl] at h
    cases v with
    | num q => exact absurd h (by simp)
    | str s => simp at h; simp [← h]

theorem StringComparator.compare_case_sensitive_ok (v w : Value) :
    StringComparator.compare v w false = .ok (decide (v = w)) := rfl

theorem cellVerdict_error_eq {isNum : Bool} {pother : List (List Value × Row)}
    {number_mode : String} {number_tolerance : ℚ} {c : String} {kr : List Value × Row}
    {e : PyError}
    (h : cellVerdict isNum pother number_mode number_tolerance false c kr = .error e) :
    e = .valueError := by
  unfold cellVerdict at h
  cases isNum with
  | true => exact NumberComparator.compare_error h
  | false => exact absurd h (by simp [StringComparator.compare])

theorem cellVerdict_self_true {isNum : Bool} {pother : List (List Value × Row)}
    {number_mode : String} {number_tolerance : ℚ} { ignore_case : Bool} {c : String}
    {kr : List Value × Row} {b : Bool} (htol : 0 < number_tolerance)
    (hnd : (partKeys pother).Nodup) (hmem : kr ∈ pother)
    (h : cellVerdict isNum pother number_mode number_tolerance ignore_case c kr = .ok b) :
    b = true := by
  unfold cellVerdict at h
  rw [lookupRow_eq hnd (show (kr.1, kr.2) ∈ pother from hmem)] at h
  cases isNum with
  | true => exact numberCompare_self_true htol h
  | false => exact stringCompare_self_true h

theorem effectiveSubset_some {one : Table} {s : List String} (h : s ≠ []) :
    effectiveSubset one (some s) = s := by
  simp [effectiveSubset, h]

theorem check_subset_overlap_error (one other : Table) (onCols subset : List String)
    (c : String) (hon : c ∈ onCols) (hsub : c ∈ subset) :
    ∃ e, DataFrameComparator.check_subset one other onCols subset = .error e ∧
      e.isConfigurationError = true := by
  simp only [DataFrameComparator.check_subset]
  by_cases hA : (decide (0 < onCols.length) && !(onCols.all fun c => decide (c ∈ subset))
      && (onCols.all fun c =>
        decide (c ∈ one.cols.filter fun c => decide (c ∈ other.cols)))) = true
  · rw [if_pos hA]
    by_cases hz :
        ((one.cols.filter fun c => decide (c ∈ other.cols)).filter
          fun c => decide (c ∉ onCols)).length = 0
    · rw [if_pos hz]
      exact ⟨.keyErrorNoCommon, rfl, rfl⟩
    · rw [if_neg hz]
      have hcfalse : decide
          (c ∈ (one.cols.filter fun c => decide (c ∈ other.cols)).filter
            fun c => decide (c ∉ onCols)) = false := by
        rw [decide_eq_false_iff_not]
        intro hcmem
        have := (List.mem_filter.mp hcmem).2
        rw [decide_eq_true_eq] at this
        exact this hon
      have hall : (subset.all fun x => decide
          (x ∈ (one.cols.filter fun c => decide (c ∈ other.cols)).filter
            fun c => decide (c ∉ onCols))) = false := by
        by_contra hc
        rw [Bool.not_eq_false] at hc
        have := List.all_eq_true.mp hc c hsub
        rw [hcfalse] at this
        exact absurd this (by simp)
      rw [if_pos (by rw [hall]; rfl)]
      exact ⟨.keyErrorInvalidSubset, rfl, rfl⟩
  · rw [if_neg hA]
    exact ⟨.assertionError, rfl, rfl⟩

theorem check_subset_allcols (one other : Table) (onCols : List String) :
    DataFrameComparator.check_subset one other onCols one.cols = .error .assertionError := by
  simp only [DataFrameComparator.check_subset]
  by_cases hsubs : (onCols.all fun c => decide (c ∈ one.cols)) = true
  · rw [if_neg ?_]
    rw [hsubs]
    simp
  · have hx : ∃ x ∈ onCols, decide (x ∈ one.cols) = false := by
      by_contra hc
      push_neg at hc
      refine hsubs (List.all_eq_true.mpr fun x hxm => ?_)
      have := hc x hxm
      cases hd : decide (x ∈ one.cols)
      · exact absurd hd this
      · rfl
    obtain ⟨x, hxm, hxn⟩ := hx
    have hxnotin : x ∉ one.cols := by
      rw [decide_eq_false_iff_not] at hxn
      exact hxn
    have hjoin : (onCols.all fun c =>
        decide (c ∈ one.cols.filter fun c => decide (c ∈ other.cols))) = false := by
      by_contra hc
      rw [Bool.not_eq_false] at hc
      have := List.all_eq_true.mp hc x hxm
      rw [decide_eq_true_eq] at this
      exact hxnotin (List.mem_filter.mp this).1
    rw [if_neg ?_]
    rw [hjoin]
    simp

theorem exceptMap_const_ok {α β : Type} {f : α → Except PyError β} {y : β} :
    ∀ {l : List α}, (∀ x ∈ l, f x = .ok y) → exceptMap f l = .ok (List.replicate l.length y) := by
  intro l
  induction l with
  | nil => intro _; rfl
  | cons a xs ih =>
    intro h
    simp only [exceptMap, h a (by simp), ih (fun x hx => h x (by simp [hx])),
      List.length_cons, List.replicate_succ]

theorem exceptMap_ok_all_true {α : Type} {f : α → Except PyError Bool} :
    ∀ {l : List α} {ys : List Bool},
      (∀ x ∈ l, ∀ b, f x = .ok b → b = true) → exceptMap f l = .ok ys →
        ys = List.replicate l.length true := by
  intro l
  induction l with
  | nil =>
    intro ys _ h
    simp only [exceptMap, Except.ok.injEq] at h
    simp [← h]
  | cons a xs ih =>
    intro ys hall h
    simp only [exceptMap] at h
    cases ha : f a with
    | error e => rw [ha] at h; exact absurd h (by simp)
    | ok b =>
      rw [ha] at h
      cases hxs : exceptMap f xs with
      | error e => rw [hxs] at h; exact absurd h (by simp)
      | ok ys0 =>
        rw [hxs] at h
        cases h
        rw [hall a (by simp) b ha, ih (fun x hx => hall x (by simp [hx])) hxs]
        rfl

theorem foldl_zipWith_nil (cols : List (List Bool)) :
    cols.foldl (fun acc col => List.zipWith (fun a b => a && b) acc col) [] = [] := by
  induction cols with
  | nil => rfl
  | cons c0 cols ih => simp [List.foldl_cons, List.zipWith_nil_left, ih]

theorem mem_zip_map {α β : Type} (f : α → β) {l : List α} {c : α} (h : c ∈ l) :
    (c, f c) ∈ l.zip (l.map f) := by
  induction l with
  | nil => exact absurd h (by simp)
  | cons a xs ih =>
    rcases List.mem_cons.mp h with rfl | hmem
    · simp [List.zip_cons_cons]
    · simp only [List.map_cons, List.zip_cons_cons, List.mem_cons]
      exact Or.inr (ih hmem)

theorem lookupRow_some_mem {t : List (List Value × Row)} {k : List Value} {r : Row}
    (h : lookupRow t k = some r) : (k, r) ∈ t := by
  unfold lookupRow at h
  cases hf : t.find? (fun kr => decide (kr.1 = k)) with
  | none => rw [hf] at h; exact absurd h (by simp)
  | some kr =>
    rw [hf] at h
    simp only [Option.map_some', Option.some.injEq] at h
    have hmem := List.mem_of_find?_eq_some hf
    have hkey := List.find?_some hf
    rw [decide_eq_true_eq] at hkey
    have : kr = (k, r) := by
      rw [← hkey, ← h]
    exact this ▸ hmem

/-! ## Claims -/

/-- C6: for all numeric values `a`, `b` and non-negative tolerance `t`, the
absolute-mode comparator returns equal iff `|a - b| < t`; at `|a - b| = t`
the values are not equal (strict less-than). -/
theorem claim6_absolute_tolerance (a b t : ℚ) (ht : 0 ≤ t) :
    (NumberComparator.absolutely_compare a b t = true ↔ abs (a - b) < t) ∧
    (abs (a - b) = t → NumberComparator.absolutely_compare a b t = false) := by
  constructor
  · simp [NumberComparator.absolutely_compare]
  · intro he
    simp [NumberComparator.absolutely_compare, he]

theorem claim6_witness :
    (0 ≤ (1 : ℚ)/1000) ∧
    ((NumberComparator.absolutely_compare 1 (1002/1000) (1/1000) = true ↔
        abs ((1 : ℚ) - 1002/1000) < 1/1000) ∧
      (abs ((1 : ℚ) - 1002/1000) = 1/1000 →
        NumberComparator.absolutely_compare 1 (1002/1000) (1/1000) = false)) :=
  ⟨by norm_num, claim6_absolute_tolerance 1 (1002/1000) (1/1000) (by norm_num)⟩

/-- C7: for all numeric values `a`, `b` and non-negative tolerance `t`, the
relative-mode comparator returns equal when both values are exactly zero, and
otherwise returns equal iff `|a - b| / max (|a|, |b|) < t`. -/
theorem claim7_relative_tolerance (a b t : ℚ) (ht : 0 ≤ t) :
    ((a = 0 ∧ b = 0) → NumberComparator.relatively_compare a b t = true) ∧
    (¬ (a = 0 ∧ b = 0) →
      (NumberComparator.relatively_compare a b t = true ↔
        abs (a - b) / max (abs a) (abs b) < t)) := by
  constructor
  · rintro ⟨rfl, rfl⟩
    rw [NumberComparator.relatively_compare, if_pos ⟨rfl, rfl⟩]
  · intro hz
    have hcond : ¬ (b = a ∧ a = 0) := by
      rintro ⟨hba, ha0⟩
      exact hz ⟨ha0, hba ▸ ha0⟩
    have hm : 0 < max (abs a) (abs b) := by
      rcases not_and_or.mp hz with h | h
      · exact lt_max_of_lt_left (abs_pos.mpr h)
      · exact lt_max_of_lt_right (abs_pos.mpr h)
    rw [NumberComparator.relatively_compare, if_neg hcond]
    simp only [decide_eq_true_eq]
    rw [abs_div, abs_of_pos hm]

theorem claim7_witness :
    (0 ≤ (1 : ℚ)/1000) ∧
    ((((100 : ℚ) = 0 ∧ (101 : ℚ) = 0) →
        NumberComparator.relatively_compare 100 101 (1/1000) = true) ∧
      (¬ ((100 : ℚ) = 0 ∧ (101 : ℚ) = 0) →
        (NumberComparator.relatively_compare 100 101 (1/1000) = true ↔
          abs ((100 : ℚ) - 101) / max (abs (100 : ℚ)) (abs (101 : ℚ)) < 1/1000))) :=
  ⟨by norm_num, claim7_relative_tolerance 100 101 (1/1000) (by norm_num)⟩

/-- C3 counterexample: with an empty compared subset the construction does
not succeed — Python `subset or …` replaces the empty list by all old-table
columns and the subset assertion then fails. -/
theorem claim3_counterexample :
    DataFrameComparator.construct sampleOld sampleNew ["ID"] (some []) "absolute" (1/1000)
      false = .error .assertionError := by decide

/-- C3 (amended): constructing with an empty compared subset always fails at
construction with the subset assertion, for every pair of tables and every
key-column list, because the empty subset is replaced by the all-columns
default which can never satisfy the assertion. -/
theorem claim3_amended_empty_subset_fails (one other : Table) (onCols : List String)
    (number_mode : String) (number_tolerance : ℚ) ( ignore_case : Bool) :
    DataFrameComparator.construct one other onCols (some []) number_mode number_tolerance
      ignore_case = .error .assertionError := by
  have heff : effectiveSubset one (some []) = one.cols := by simp [effectiveSubset]
  simp only [DataFrameComparator.construct, heff, check_subset_allcols]

/-- C4: whenever a compared-subset column is also a key column, construction
fails with a configuration error (the Python `assert` or one of the
`KeyError`s) before any row is processed. -/
theorem claim4_subset_overlap_rejected (one other : Table) (onCols subset : List String)
    (number_mode : String) (number_tolerance : ℚ) ( ignore_case : Bool) (c : String)
    (hon : c ∈ onCols) (hsub : c ∈ subset) :
    ∃ e, DataFrameComparator.construct one other onCols (some subset) number_mode
      number_tolerance ignore_case = .error e ∧ e.isConfigurationError = true := by
  have hne : subset ≠ [] := by
    intro hh
    rw [hh] at hsub
    exact absurd hsub (by simp)
  obtain ⟨e, he, hc⟩ := check_subset_overlap_error one other onCols subset c hon hsub
  refine ⟨e, ?_, hc⟩
  simp only [DataFrameComparator.construct, effectiveSubset_some hne, he]

theorem claim4_witness :
    ("ID" ∈ ["ID"]) ∧ ("ID" ∈ ["ID", "V"]) ∧
    ∃ e, DataFrameComparator.construct sampleOld sampleNew ["ID"] (some ["ID", "V"])
      "absolute" (1/1000) false = .error e ∧ e.isConfigurationError = true :=
  ⟨by simp, by simp,
    claim4_subset_overlap_rejected sampleOld sampleNew ["ID"] ["ID", "V"] "absolute"
      (1/1000) false "ID" (by simp) (by simp)⟩

/-- C10: with the subset argument omitted (`None`), a non-empty key-column
list drawn from the old table's columns makes the default subset equal to all
old-table columns, so the construction-time assertion always rejects it. -/
theorem claim10_default_subset_always_fails (one other : Table) (onCols : List String)
    (number_mode : String) (number_tolerance : ℚ) ( ignore_case : Bool)
    (hne : onCols ≠ []) (hcols : ∀ c ∈ onCols, c ∈ one.cols) :
    DataFrameComparator.construct one other onCols none number_mode number_tolerance
      ignore_case = .error .assertionError := by
  have heff : effectiveSubset one none = one.cols := rfl
  simp only [DataFrameComparator.construct, heff, check_subset_allcols]

theorem claim10_witness :
    (["ID"] ≠ ([] : List String)) ∧ (∀ c ∈ ["ID"], c ∈ sampleOld.cols) ∧
    DataFrameComparator.construct sampleOld sampleNew ["ID"] none "absolute" (1/1000)
      false = .error .assertionError :=
  ⟨by simp, by simp [sampleOld],
    claim10_default_subset_always_fails sampleOld sampleNew ["ID"] "absolute" (1/1000)
      false (by simp) (by simp [sampleOld])⟩

/-- C2 counterexample: a table with a duplicate key is accepted — the
constructor performs no duplicate-key detection and no duplicate-key error
exists, so construction succeeds on a duplicate-keyed old table. -/
theorem claim2_counterexample :
    (¬ (tableKeys sampleDup ["ID"]).Nodup) ∧
    (DataFrameComparator.construct sampleDup sampleNew ["ID"] (some ["V"]) "absolute"
      (1/1000) false).isOk = true := by
  constructor
  · decide
  · decide

/-- C2 (amended): construction performs no duplicate-key check: whenever the
configuration checks pass and no old-table key occurs in the new table,
construction succeeds — duplicate keys included — and the duplicated rows all
appear in `rows_deleted`. -/
theorem claim2_amended_no_duplicate_check (one other : Table) (onCols subset : List String)
    (number_mode : String) (number_tolerance : ℚ) ( ignore_case : Bool)
    (hne : subset ≠ [])
    (hcheck : DataFrameComparator.check_subset one other onCols subset = .ok ())
    (hdisj : ∀ k ∈ tableKeys one onCols, k ∉ tableKeys other onCols) :
    ∃ c, DataFrameComparator.construct one other onCols (some subset) number_mode
        number_tolerance ignore_case = .ok c ∧
      c.rows_deleted = prepareTable one onCols subset ∧
      c.rows_inserted = prepareTable other onCols subset := by
  have heff := @effectiveSubset_some one subset hne
  have hcommon : (prepareTable one onCols subset).filter
      (fun kr => keyMem (prepareTable other onCols subset) kr.1) = [] := by
    rw [List.filter_eq_nil_iff]
    intro kr hkr
    have hk1 : kr.1 ∈ tableKeys one onCols := by
      rw [← partKeys_prepare one onCols subset]
      exact List.mem_map.mpr ⟨kr, hkr, rfl⟩
    have hk2 := hdisj kr.1 hk1
    rw [← partKeys_prepare other onCols subset] at hk2
    intro hmem
    exact hk2 (keyMem_iff.mp hmem)
  have hmap : exceptMap
      (fun p => colVerdicts
        ((prepareTable one onCols subset).filter
          (fun kr => keyMem (prepareTable other onCols subset) kr.1))
        (prepareTable other onCols subset)
        number_mode number_tolerance ignore_case p.1 p.2)
      (subset.zip (subset.map (classifyNumeric (prepareTable one onCols subset)))) =
      .ok (List.replicate
        (subset.zip (subset.map (classifyNumeric (prepareTable one onCols subset)))).length
        []) := by
    refine exceptMap_const_ok fun p _ => ?_
    rw [hcommon]
    rfl
  have hconstruct : DataFrameComparator.construct one other onCols (some subset) number_mode
      number_tolerance ignore_case =
      .ok ⟨prepareTable one onCols subset, prepareTable other onCols subset,
        (prepareTable one onCols subset).filter
          (fun kr => keyMem (prepareTable other onCols subset) kr.1),
        (List.replicate
          (subset.zip (subset.map (classifyNumeric (prepareTable one onCols subset)))).length
          ([] : List Bool)).foldl
            (fun acc col => List.zipWith (fun a b => a && b) acc col)
            (List.replicate
              ((prepareTable one onCols subset).filter
                (fun kr => keyMem (prepareTable other onCols subset) kr.1)).length true)⟩ := by
    simp only [DataFrameComparator.construct, heff, hcheck, hmap]
  refine ⟨_, hconstruct, ?_, ?_⟩
  · show (prepareTable one onCols subset).filter
      (fun kr => !(keyMem (prepareTable other onCols subset) kr.1)) =
      prepareTable one onCols subset
    rw [List.filter_eq_self]
    intro kr hkr
    have hk1 : kr.1 ∈ tableKeys one onCols := by
      rw [← partKeys_prepare one onCols subset]
      exact List.mem_map.mpr ⟨kr, hkr, rfl⟩
    have hk2 := hdisj kr.1 hk1
    rw [← partKeys_prepare other onCols subset] at hk2
    cases hkm : keyMem (prepareTable other onCols subset) kr.1
    · rfl
    · exact absurd (keyMem_iff.mp hkm) hk2
  · show (prepareTable other onCols subset).filter
      (fun kr => !(keyMem (prepareTable one onCols subset) kr.1)) =
      prepareTable other onCols subset
    rw [List.filter_eq_self]
    intro kr hkr
    have hk2 : kr.1 ∈ tableKeys other onCols := by
      rw [← partKeys_prepare other onCols subset]
      exact List.mem_map.mpr ⟨kr, hkr, rfl⟩
    cases hkm : keyMem (prepareTable one onCols subset) kr.1
    · rfl
    · exfalso
      have := keyMem_iff.mp hkm
      rw [partKeys_prepare one onCols subset] at this
      exact hdisj kr.1 this hk2

theorem claim2_witness :
    (["V"] ≠ ([] : List String)) ∧
    (DataFrameComparator.check_subset sampleDup sampleNew ["ID"] ["V"] = .ok ()) ∧
    (∀ k ∈ tableKeys sampleDup ["ID"], k ∉ tableKeys sampleNew ["ID"]) ∧
    ∃ c, DataFrameComparator.construct sampleDup sampleNew ["ID"] (some ["V"]) "absolute"
        (1/1000) false = .ok c ∧
      c.rows_deleted = prepareTable sampleDup ["ID"] ["V"] ∧
      c.rows_inserted = prepareTable sampleNew ["ID"] ["V"] :=
  ⟨by simp, by decide, by decide,
    claim2_amended_no_duplicate_check sampleDup sampleNew ["ID"] ["V"] "absolute" (1/1000)
      false (by simp) (by decide) (by decide)⟩

/-- C8: (1) the numeric comparator signals the conversion failure
(`ValueError`, the spec's `TypeConversionError`) whenever either value cannot
be parsed as a number; and (2) when a column classified Numeric from the old
table meets a non-numeric new-table value at a common key (with
case-sensitive string comparison, so no other exception can intervene), the
whole construction aborts with that error instead of coercing or
re-classifying. -/
theorem claim8_type_conversion_fatal :
    (∀ (v w : Value) (number_mode : String) (number_tolerance : ℚ),
      (asFloat? v = none ∨ asFloat? w = none) →
        NumberComparator.compare v w number_mode number_tolerance = .error .valueError) ∧
    (∀ (one other : Table) (onCols subset : List String) (number_mode : String)
      (number_tolerance : ℚ) (k : List Value) (r : Row) (cName : String),
      subset ≠ [] →
      DataFrameComparator.check_subset one other onCols subset = .ok () →
      cName ∈ subset →
      classifyNumeric (prepareTable one onCols subset) cName = true →
      k ∈ tableKeys one onCols →
      lookupRow (prepareTable other onCols subset) k = some r →
      asFloat? (getCell r cName) = none →
      DataFrameComparator.construct one other onCols (some subset) number_mode
        number_tolerance false = .error .valueError) := by
  constructor
  · intro v w m tol h
    exact NumberComparator.compare_none_error h
  · intro one other onCols subset m tol k r cName hne hcheck hcol hnum hkone hlook hbad
    have heff := @effectiveSubset_some one subset hne
    have hkother : (k, r) ∈ prepareTable other onCols subset := lookupRow_some_mem hlook
    obtain ⟨r1, hr1⟩ : ∃ r1, (k, r1) ∈ prepareTable one onCols subset := by
      rw [← partKeys_prepare one onCols subset] at hkone
      obtain ⟨kr, hkr, hk⟩ := List.mem_map.mp hkone
      exact ⟨kr.2, by rw [← hk]; exact hkr⟩
    have hkrcommon : (k, r1) ∈ (prepareTable one onCols subset).filter
        (fun kr => keyMem (prepareTable other onCols subset) kr.1) := by
      refine List.mem_filter.mpr ⟨hr1, ?_⟩
      exact keyMem_iff.mpr (List.mem_map.mpr ⟨(k, r), hkother, rfl⟩)
    have hcell : cellVerdict true (prepareTable other onCols subset) m tol false cName
        (k, r1) = .error .valueError := by
      unfold cellVerdict
      rw [hlook]
      exact NumberComparator.compare_none_error (Or.inr hbad)
    have hcol_err : ∃ e, colVerdicts
        ((prepareTable one onCols subset).filter
          (fun kr => keyMem (prepareTable other onCols subset) kr.1))
        (prepareTable other onCols subset) m tol false cName true = .error e := by
      unfold colVerdicts
      cases hres : exceptMap (cellVerdict true (prepareTable other onCols subset) m tol
          false cName)
          ((prepareTable one onCols subset).filter
            (fun kr => keyMem (prepareTable other onCols subset) kr.1)) with
      | error e => exact ⟨e, rfl⟩
      | ok ys =>
        obtain ⟨y, _, hok⟩ := exceptMap_ok_of_mem hres (k, r1) hkrcommon
        rw [hcell] at hok
        exact absurd hok (by simp)
    have hmap : exceptMap
        (fun p => colVerdicts
          ((prepareTable one onCols subset).filter
            (fun kr => keyMem (prepareTable other onCols subset) kr.1))
          (prepareTable other onCols subset) m tol false p.1 p.2)
        (subset.zip (subset.map (classifyNumeric (prepareTable one onCols subset)))) =
        .error .valueError := by
      refine exceptMap_error_of ?_ ?_
      · intro p _ e he
        obtain ⟨kr, _, hcv⟩ := exceptMap_error_imp he
        exact cellVerdict_error_eq hcv
      · refine ⟨(cName, classifyNumeric (prepareTable one onCols subset) cName), ?_, ?_⟩
        · exact mem_zip_map _ hcol
        · rw [hnum]
          exact hcol_err
    simp only [DataFrameComparator.construct, heff, hcheck, hmap]

theorem claim8_witness :
    (["V"] ≠ ([] : List String)) ∧
    (DataFrameComparator.check_subset sampleGood sampleBad ["ID"] ["V"] = .ok ()) ∧
    ("V" ∈ ["V"]) ∧
    (classifyNumeric (prepareTable sampleGood ["ID"] ["V"]) "V" = true) ∧
    ([Value.num 1] ∈ tableKeys sampleGood ["ID"]) ∧
    (lookupRow (prepareTable sampleBad ["ID"] ["V"]) [Value.num 1] =
      some [("V", Value.str "abc")]) ∧
    (asFloat? (getCell [("V", Value.str "abc")] "V") = none) ∧
    DataFrameComparator.construct sampleGood sampleBad ["ID"] (some ["V"]) "absolute"
      (1/1000) false = .error .valueError :=
  ⟨by simp, by decide, by simp, by decide, by decide, by decide, by decide,
    claim8_type_conversion_fatal.2 sampleGood sampleBad ["ID"] ["V"] "absolute" (1/1000)
      [Value.num 1] [("V", Value.str "abc")] "V" (by simp) (by decide) (by simp) (by decide)
      (by decide) (by decide) (by decide)⟩

/-- C5: comparing a table against itself (same keys, same subset), with
unique keys and a positive tolerance (the default 0.001 is positive), yields
empty `rows_deleted`, `rows_inserted`, `rows_before_update` and
`rows_after_update`, and `rows_in_common` equal to the whole prepared
table. -/
theorem claim5_self_comparison (t : Table) (onCols : List String)
    (subset : Option (List String)) (number_mode : String) (number_tolerance : ℚ)
    ( ignore_case : Bool) (c : CompareResult)
    (htol : 0 < number_tolerance)
    (hnd : (tableKeys t onCols).Nodup)
    (h : DataFrameComparator.construct t t onCols subset number_mode number_tolerance
      ignore_case = .ok c) :
    c.rows_deleted = [] ∧ c.rows_inserted = [] ∧ c.rows_before_update = [] ∧
      c.rows_after_update = [] ∧
      c.rows_in_common = prepareTable t onCols (effectiveSubset t subset) := by
  obtain ⟨hcheck, colVs, hmap, hc⟩ := construct_ok_inv h
  subst hc
  set sub := effectiveSubset t subset with hsub
  set pone := prepareTable t onCols sub with hpone
  set common := pone.filter (fun kr => keyMem pone kr.1) with hcommon
  have hndp : (partKeys pone).Nodup := by
    rw [hpone, partKeys_prepare]
    exact hnd
  have hfull : common = pone := by
    rw [hcommon, List.filter_eq_self]
    intro kr hkr
    exact keyMem_iff.mpr (List.mem_map.mpr ⟨kr, hkr, rfl⟩)
  have hcols : ∀ cl ∈ colVs, cl = List.replicate common.length true := by
    intro cl hcl
    obtain ⟨p, hp, hok⟩ := exceptMap_ok_mem_rev hmap cl hcl
    unfold colVerdicts at hok
    refine exceptMap_ok_all_true (fun kr hkr b hb => ?_) hok
    exact cellVerdict_self_true htol hndp ((List.mem_filter.mp hkr).1) hb
  have hmask : colVs.foldl (fun acc col => List.zipWith (fun a b => a && b) acc col)
      (List.replicate common.length true) = List.replicate common.length true :=
    foldl_zipWith_and_replicate hcols
  refine ⟨?_, ?_, ?_, ?_, ?_⟩
  · show pone.filter (fun kr => !(keyMem pone kr.1)) = []
    rw [List.filter_eq_nil_iff]
    intro kr hkr
    rw [keyMem_iff.mpr (List.mem_map.mpr ⟨kr, hkr, rfl⟩)]
    simp
  · show pone.filter (fun kr => !(keyMem pone kr.1)) = []
    rw [List.filter_eq_nil_iff]
    intro kr hkr
    rw [keyMem_iff.mpr (List.mem_map.mpr ⟨kr, hkr, rfl⟩)]
    simp
  · show loc pone (maskKeys common _ false) = []
    rw [hmask, (maskKeys_replicate_true common).2, loc_nil]
  · show loc pone (maskKeys common _ false) = []
    rw [hmask, (maskKeys_replicate_true common).2, loc_nil]
  · show loc pone (maskKeys common _ true) = pone
    rw [hmask, (maskKeys_replicate_true common).1, hfull, loc_self hndp]

theorem claim5_witness :
    (0 < (1 : ℚ)/1000) ∧ (tableKeys sampleOld ["ID"]).Nodup ∧
    (DataFrameComparator.construct sampleOld sampleOld ["ID"] (some ["V"]) "absolute"
      (1/1000) false = .ok sampleSelfResult) ∧
    (sampleSelfResult.rows_deleted = [] ∧ sampleSelfResult.rows_inserted = [] ∧
      sampleSelfResult.rows_before_update = [] ∧ sampleSelfResult.rows_after_update = [] ∧
      sampleSelfResult.rows_in_common =
        prepareTable sampleOld ["ID"] (effectiveSubset sampleOld (some ["V"]))) :=
  ⟨by norm_num, by decide, by decide,
    claim5_self_comparison sampleOld ["ID"] (some ["V"]) "absolute" (1/1000) false
      sampleSelfResult (by norm_num) (by decide) (by decide)⟩

/-- C9: for every successful construction with unique keys,
`rows_before_update` and `rows_after_update` are indexed by exactly the same
keys — the common keys whose mask is false (at least one false cell
verdict). -/
theorem claim9_update_keys_aligned (one other : Table) (onCols : List String)
    (subset : Option (List String)) (number_mode : String) (number_tolerance : ℚ)
    ( ignore_case : Bool) (c : CompareResult)
    (hnd1 : (tableKeys one onCols).Nodup) (hnd2 : (tableKeys other onCols).Nodup)
    (h : DataFrameComparator.construct one other onCols subset number_mode number_tolerance
      ignore_case = .ok c) :
    partKeys c.rows_before_update = partKeys c.rows_after_update ∧
      partKeys c.rows_before_update = maskKeys c.common c.mask false := by
  obtain ⟨hcheck, colVs, hmap, hc⟩ := construct_ok_inv h
  subst hc
  set sub := effectiveSubset one subset with hsub
  set pone := prepareTable one onCols sub with hpone
  set pother := prepareTable other onCols sub with hpother
  set common := pone.filter (fun kr => keyMem pother kr.1) with hcommon
  set mask := colVs.foldl (fun acc col => List.zipWith (fun a b => a && b) acc col)
    (List.replicate common.length true) with hmaskdef
  have hndp1 : (partKeys pone).Nodup := by
    rw [hpone, partKeys_prepare]
    exact hnd1
  have hndp2 : (partKeys pother).Nodup := by
    rw [hpother, partKeys_prepare]
    exact hnd2
  have hsub1 : ∀ k ∈ maskKeys common mask false, k ∈ partKeys pone := by
    intro k hk
    exact mem_partKeys_filter (mem_maskKeys_imp hk)
  have hsub2 : ∀ k ∈ maskKeys common mask false, k ∈ partKeys pother := by
    intro k hk
    have := mem_maskKeys_imp hk
    rw [hcommon] at this
    have := (mem_partKeys_filter_key.mp this).2
    exact keyMem_iff.mp this
  have hbefore : partKeys (loc pone (maskKeys common mask false)) =
      maskKeys common mask false := partKeys_loc_eq hndp1 hsub1
  have hafter : partKeys (loc pother (maskKeys common mask false)) =
      maskKeys common mask false := partKeys_loc_eq hndp2 hsub2
  exact ⟨hbefore.trans hafter.symm, hbefore⟩

theorem claim9_witness :
    (tableKeys sampleGood ["ID"]).Nodup ∧ (tableKeys sampleUpdNew ["ID"]).Nodup ∧
    (DataFrameComparator.construct sampleGood sampleUpdNew ["ID"] (some ["V"]) "absolute"
      (1/1000) false = .ok sampleUpdResult) ∧
    (partKeys sampleUpdResult.rows_before_update =
        partKeys sampleUpdResult.rows_after_update ∧
      partKeys sampleUpdResult.rows_before_update =
        maskKeys sampleUpdResult.common sampleUpdResult.mask false) :=
  ⟨by decide, by decide, by decide,
    claim9_update_keys_aligned sampleGood sampleUpdNew ["ID"] (some ["V"]) "absolute"
      (1/1000) false sampleUpdResult (by decide) (by decide) (by decide)⟩

/-- C1: for every pair of tables with unique keys and a successful
construction, the keys are partitioned: an old-only key appears in
`rows_deleted` and in no other partition; a new-only key appears in
`rows_inserted` and in no other partition; a common key appears in neither of
those and in exactly one of `rows_in_common` or the updated pair
(`rows_before_update` together with `rows_after_update`). -/
theorem claim1_partition (one other : Table) (onCols : List String)
    (subset : Option (List String)) (number_mode : String) (number_tolerance : ℚ)
    ( ignore_case : Bool) (c : CompareResult)
    (hnd1 : (tableKeys one onCols).Nodup) (hnd2 : (tableKeys other onCols).Nodup)
    (h : DataFrameComparator.construct one other onCols subset number_mode number_tolerance
      ignore_case = .ok c) :
    ∀ k : List Value,
      (k ∈ tableKeys one onCols ∧ k ∉ tableKeys other onCols →
        k ∈ partKeys c.rows_deleted ∧ k ∉ partKeys c.rows_inserted ∧
        k ∉ partKeys c.rows_in_common ∧ k ∉ partKeys c.rows_before_update ∧
        k ∉ partKeys c.rows_after_update) ∧
      (k ∈ tableKeys other onCols ∧ k ∉ tableKeys one onCols →
        k ∈ partKeys c.rows_inserted ∧ k ∉ partKeys c.rows_deleted ∧
        k ∉ partKeys c.rows_in_common ∧ k ∉ partKeys c.rows_before_update ∧
        k ∉ partKeys c.rows_after_update) ∧
      (k ∈ tableKeys one onCols ∧ k ∈ tableKeys other onCols →
        k ∉ partKeys c.rows_deleted ∧ k ∉ partKeys c.rows_inserted ∧
        ((k ∈ partKeys c.rows_in_common ∧ k ∉ partKeys c.rows_before_update ∧
            k ∉ partKeys c.rows_after_update) ∨
          (k ∉ partKeys c.rows_in_common ∧ k ∈ partKeys c.rows_before_update ∧
            k ∈ partKeys c.rows_after_update))) := by
  obtain ⟨hcheck, colVs, hmap, hc⟩ := construct_ok_inv h
  subst hc
  set sub := effectiveSubset one subset with hsub
  set pone := prepareTable one onCols sub with hpone
  set pother := prepareTable other onCols sub with hpother
  set common := pone.filter (fun kr => keyMem pother kr.1) with hcommon
  set mask := colVs.foldl (fun acc col => List.zipWith (fun a b => a && b) acc col)
    (List.replicate common.length true) with hmaskdef
  have hponek : partKeys pone = tableKeys one onCols := by rw [hpone, partKeys_prepare]
  have hpotherk : partKeys pother = tableKeys other onCols := by rw [hpother, partKeys_prepare]
  have hndp1 : (partKeys pone).Nodup := by rw [hponek]; exact hnd1
  have hcommonk : ∀ k, k ∈ partKeys common ↔
      k ∈ tableKeys one onCols ∧ k ∈ tableKeys other onCols := by
    intro k
    rw [hcommon, mem_partKeys_filter_key, hponek, keyMem_iff, hpotherk]
  have hcommon_nd : (partKeys common).Nodup := by
    rw [hcommon]
    exact partKeys_filter_nodup hndp1
  have hlen : mask.length = common.length := by
    have hcols' : ∀ cl ∈ colVs, cl.length = (List.replicate common.length true).length := by
      intro cl hcl
      obtain ⟨p, hp, hok⟩ := exceptMap_ok_mem_rev hmap cl hcl
      unfold colVerdicts at hok
      rw [List.length_replicate]
      exact exceptMap_ok_length hok
    have hfold := foldl_zipWith_and_length hcols'
    rw [hmaskdef, hfold, List.length_replicate]
  have hdel : ∀ k, k ∈ partKeys (CompareResult.rows_deleted ⟨pone, pother, common, mask⟩) ↔
      k ∈ tableKeys one onCols ∧ k ∉ tableKeys other onCols := by
    intro k
    have hbase := @mem_partKeys_filter_key pone k (fun x => !(keyMem pother x))
    constructor
    · intro hmem
      obtain ⟨h1, h2⟩ := hbase.mp hmem
      refine ⟨by rw [← hponek]; exact h1, fun hmem2 => ?_⟩
      rw [← hpotherk, ← keyMem_iff] at hmem2
      rw [hmem2] at h2
      exact absurd h2 (by simp)
    · rintro ⟨h1, h2⟩
      refine hbase.mpr ⟨by rw [hponek]; exact h1, ?_⟩
      cases hkm : keyMem pother k
      · rfl
      · exact absurd (hpotherk ▸ keyMem_iff.mp hkm) h2
  have hins : ∀ k, k ∈ partKeys (CompareResult.rows_inserted ⟨pone, pother, common, mask⟩) ↔
      k ∈ tableKeys other onCols ∧ k ∉ tableKeys one onCols := by
    intro k
    have hbase := @mem_partKeys_filter_key pother k (fun x => !(keyMem pone x))
    constructor
    · intro hmem
      obtain ⟨h1, h2⟩ := hbase.mp hmem
      refine ⟨by rw [← hpotherk]; exact h1, fun hmem2 => ?_⟩
      rw [← hponek, ← keyMem_iff] at hmem2
      rw [hmem2] at h2
      exact absurd h2 (by simp)
    · rintro ⟨h1, h2⟩
      refine hbase.mpr ⟨by rw [hpotherk]; exact h1, ?_⟩
      cases hkm : keyMem pone k
      · rfl
      · exact absurd (hponek ▸ keyMem_iff.mp hkm) h2
  have hic : ∀ k,
      k ∈ partKeys (CompareResult.rows_in_common ⟨pone, pother, common, mask⟩) ↔
      k ∈ maskKeys common mask true := by
    intro k
    show k ∈ partKeys (loc pone (maskKeys common mask true)) ↔ _
    rw [mem_partKeys_loc]
    constructor
    · exact fun h => h.1
    · intro h
      exact ⟨h, mem_partKeys_filter (mem_maskKeys_imp h)⟩
  have hbef : ∀ k,
      k ∈ partKeys (CompareResult.rows_before_update ⟨pone, pother, common, mask⟩) ↔
      k ∈ maskKeys common mask false := by
    intro k
    show k ∈ partKeys (loc pone (maskKeys common mask false)) ↔ _
    rw [mem_partKeys_loc]
    constructor
    · exact fun h => h.1
    · intro h
      exact ⟨h, mem_partKeys_filter (mem_maskKeys_imp h)⟩
  have haft : ∀ k,
      k ∈ partKeys (CompareResult.rows_after_update ⟨pone, pother, common, mask⟩) ↔
      k ∈ maskKeys common mask false := by
    intro k
    show k ∈ partKeys (loc pother (maskKeys common mask false)) ↔ _
    rw [mem_partKeys_loc]
    constructor
    · exact fun h => h.1
    · intro h
      refine ⟨h, ?_⟩
      have := mem_maskKeys_imp h
      rw [hcommon] at this
      exact keyMem_iff.mp (mem_partKeys_filter_key.mp this).2
  intro k
  refine ⟨?_, ?_, ?_⟩
  · rintro ⟨h1, h2⟩
    refine ⟨(hdel k).mpr ⟨h1, h2⟩, ?_, ?_, ?_, ?_⟩
    · intro hmem
      exact h2 ((hins k).mp hmem).1
    · intro hmem
      exact h2 ((hcommonk k).mp (mem_maskKeys_imp ((hic k).mp hmem))).2
    · intro hmem
      exact h2 ((hcommonk k).mp (mem_maskKeys_imp ((hbef k).mp hmem))).2
    · intro hmem
      exact h2 ((hcommonk k).mp (mem_maskKeys_imp ((haft k).mp hmem))).2
  · rintro ⟨h1, h2⟩
    refine ⟨(hins k).mpr ⟨h1, h2⟩, ?_, ?_, ?_, ?_⟩
    · intro hmem
      exact h2 ((hdel k).mp hmem).1
    · intro hmem
      exact h2 ((hcommonk k).mp (mem_maskKeys_imp ((hic k).mp hmem))).1
    · intro hmem
      exact h2 ((hcommonk k).mp (mem_maskKeys_imp ((hbef k).mp hmem))).1
    · intro hmem
      exact h2 ((hcommonk k).mp (mem_maskKeys_imp ((haft k).mp hmem))).1
  · rintro ⟨h1, h2⟩
    refine ⟨?_, ?_, ?_⟩
    · intro hmem
      exact ((hdel k).mp hmem).2 h2
    · intro hmem
      exact ((hins k).mp hmem).2 h1
    · have hkc : k ∈ partKeys common := (hcommonk k).mpr ⟨h1, h2⟩
      rcases maskKeys_cover hlen hkc with hcase | hcase
      · left
        refine ⟨(hic k).mpr hcase, ?_, ?_⟩
        · intro hmem
          exact maskKeys_disjoint hcommon_nd ⟨hcase, (hbef k).mp hmem⟩
        · intro hmem
          exact maskKeys_disjoint hcommon_nd ⟨hcase, (haft k).mp hmem⟩
      · right
        refine ⟨?_, (hbef k).mpr hcase, (haft k).mpr hcase⟩
        intro hmem
        exact maskKeys_disjoint hcommon_nd ⟨(hic k).mp hmem, hcase⟩

theorem claim1_witness :
    (tableKeys sampleOld ["ID"]).Nodup ∧ (tableKeys sampleNew ["ID"]).Nodup ∧
    (DataFrameComparator.construct sampleOld sampleNew ["ID"] (some ["V"]) "absolute"
      (1/1000) false = .ok sampleResult) ∧
    ([Value.num 1] ∈ tableKeys sampleOld ["ID"] ∧
      [Value.num 1] ∉ tableKeys sampleNew ["ID"]) ∧
    ([Value.num 1] ∈ partKeys sampleResult.rows_deleted ∧
      [Value.num 1] ∉ partKeys sampleResult.rows_inserted ∧
      [Value.num 1] ∉ partKeys sampleResult.rows_in_common ∧
      [Value.num 1] ∉ partKeys sampleResult.rows_before_update ∧
      [Value.num 1] ∉ partKeys sampleResult.rows_after_update) :=
  ⟨by decide, by decide, by decide, by decide,
    ((claim1_partition sampleOld sampleNew ["ID"] (some ["V"]) "absolute" (1/1000) false
      sampleResult (by decide) (by decide) (by decide)) [Value.num 1]).1 (by decide)⟩

example : NumberComparator.absolutely_compare 1 (1002/1000) (1/1000) = false := by decide
example : NumberComparator.absolutely_compare 1 (10005/10000) (1/1000) = true := by decide
example : NumberComparator.relatively_compare 100 (10005/100) (1/1000) = true := by decide
example : NumberComparator.relatively_compare 100 101 (1/1000) = false := by decide
example : asFloat? (.str "abc") = none := by decide
example : asFloat? (.str "1.5") = some (3/2) := by decide
example : asFloat? (.str "-2") = some (-2) := by decide
